import Mathlib

/-!
Shallow embedding of the k8s-dump tool (main.go and the YAML printer file)
in Lean 4, together with theorems settling the frozen claims about it.

Modelling conventions:
* Machine text is `String` / `List Char`; the Go regexp
  `(\s*)resourceVersion: "(\d+)"|(\s*)ExternalName: ""` applied with
  `ReplaceAllString(s, "")` is embedded as an executable scanner that
  deletes successive leftmost non-overlapping matches, exactly as Go's
  single-pass replacement does (it never rescans the produced output).
* The external Kubernetes API is a query environment passed explicitly:
  each (namespace, resource type) pair yields a list of objects, a
  NotFound error, or another error.
* The third-party YAML serializer (`yaml.Marshal` inside `PrintObj`) is a
  parameter `printer : RuntimeObject → String`; the repository's own code
  around it (header lines, status zeroing, regex substitution) is embedded
  faithfully.
* File writes are modelled by returning the (path, content) pair that
  `ioutil.WriteFile` receives; an error return carries no write, matching
  the code path where `dumpNamespace` returns before reaching WriteFile.
* Go map iteration order is unspecified; the query loop of
  `dumpNamespace` is modelled as iterating the mapping keys in their
  source order, while the template's `range $k, $v := .types` sorts keys
  in increasing string order, as text/template does.
-/

namespace K8sDump

/-- Whitespace class of Go's regexp `\s`, namely `[\t\n\f\r ]`. -/
def isWS (c : Char) : Bool :=
  c = ' ' || c = '\t' || c = '\n' || c = '\x0c' || c = '\r'

/-- Literal part of the first alternative of the regexp at main.go:270. -/
def rvLit : List Char := "resourceVersion: \"".data

/-- Literal part of the second alternative of the regexp at main.go:270. -/
def enLit : List Char := "ExternalName: \"\"".data

/-- Matches the literal `lit` at the head of `input`, returning the rest. -/
def matchLit : List Char → List Char → Option (List Char)
  | [], input => some input
  | _ :: _, [] => none
  | c :: cs, d :: ds => if c = d then matchLit cs ds else none

/-- Attempts to match the regexp at the head of `l` (greedy `\s*`, then the
first alternative `resourceVersion: "(\d+)"`, else `ExternalName: ""`),
returning the input remaining after the match. Greedy matching is exact
here: backtracking on `\s*` or `\d+` cannot succeed where the greedy
attempt fails, because the literals start with non-whitespace and the
closing quote is not a digit. -/
def tryMatch (l : List Char) : Option (List Char) :=
  match matchLit rvLit (l.dropWhile isWS) with
  | some r₁ =>
    match r₁.takeWhile Char.isDigit, r₁.dropWhile Char.isDigit with
    | [], _ => none
    | _ :: _, '"' :: r₃ => some r₃
    | _ :: _, _ => none
  | none => matchLit enLit (l.dropWhile isWS)

theorem matchLit_length : ∀ (lit input r : List Char),
    matchLit lit input = some r → input.length = lit.length + r.length := by
  intro lit
  induction lit with
  | nil => intro input r h; simp [matchLit] at h; simp [h]
  | cons c cs ih =>
    intro input r h
    cases input with
    | nil => simp [matchLit] at h
    | cons d ds =>
      simp only [matchLit] at h
      by_cases hc : c = d
      · simp [hc] at h
        have := ih ds r h
        simp [List.length_cons, this]
        omega
      · simp [hc] at h

theorem tryMatch_some_length {l r : List Char} (h : tryMatch l = some r) :
    r.length < l.length := by
  have hdw : (l.dropWhile isWS).length ≤ l.length :=
    (List.dropWhile_sublist isWS).length_le
  unfold tryMatch at h
  split at h
  next r₁ hm =>
    split at h
    next => exact absurd h (by simp)
    next d ds r₃ htw hdr =>
      have hr : r₃ = r := by injection h
      subst hr
      have h₁ := matchLit_length _ _ _ hm
      have hsplit : (r₁.takeWhile Char.isDigit).length +
          (r₁.dropWhile Char.isDigit).length = r₁.length := by
        rw [← List.length_append, List.takeWhile_append_dropWhile]
      rw [htw, hdr] at hsplit
      have h18 : rvLit.length = 18 := by decide
      simp [List.length_cons] at hsplit
      omega
    next => exact absurd h (by simp)
  next hm =>
    have h₂ := matchLit_length _ _ _ h
    have h16 : enLit.length = 16 := by decide
    omega

/-- Fuel-driven scanner deleting successive leftmost non-overlapping
matches; with fuel at least the input length it computes the replacement. -/
def rrAuxF : Nat → List Char → List Char
  | 0, l => l
  | _ + 1, [] => []
  | fuel + 1, c :: cs =>
    match tryMatch (c :: cs) with
    | some r => rrAuxF fuel r
    | none => c :: rrAuxF fuel cs

/-- Deletes successive leftmost non-overlapping matches of the regexp from
the character list, as `regex.ReplaceAllString(s, "")` does. -/
def rrAux (l : List Char) : List Char := rrAuxF l.length l

theorem rrAuxF_congr : ∀ (f₁ : Nat) (l : List Char) (f₂ : Nat),
    l.length ≤ f₁ → l.length ≤ f₂ → rrAuxF f₁ l = rrAuxF f₂ l := by
  intro f₁
  induction f₁ with
  | zero =>
    intro l f₂ h₁ _
    have : l = [] := by cases l with
      | nil => rfl
      | cons a as => simp at h₁
    subst this
    cases f₂ <;> rfl
  | succ f ih =>
    intro l f₂ h₁ h₂
    cases l with
    | nil => cases f₂ <;> rfl
    | cons c cs =>
      cases f₂ with
      | zero => simp at h₂
      | succ f' =>
        simp only [rrAuxF]
        cases hm : tryMatch (c :: cs) with
        | some r =>
          have hr := tryMatch_some_length hm
          exact ih r f' (by simp at h₁ hr ⊢; omega) (by simp at h₂ hr ⊢; omega)
        | none =>
          have : cs.length ≤ f := by simp at h₁; omega
          have h2' : cs.length ≤ f' := by simp at h₂; omega
          rw [ih cs f' this h2']

/-- Unfolding equation for `rrAux` on a nonempty list. -/
theorem rrAux_cons (c : Char) (cs : List Char) :
    rrAux (c :: cs) =
      match tryMatch (c :: cs) with
      | some r => rrAux r
      | none => c :: rrAux cs := by
  show rrAuxF (cs.length + 1) (c :: cs) = _
  cases hm : tryMatch (c :: cs) with
  | some r =>
    have hr := tryMatch_some_length hm
    simp only [rrAuxF, hm]
    exact rrAuxF_congr cs.length r r.length (by simp at hr; omega) le_rfl
  | none => simp only [rrAuxF, hm]; rfl

/-- The embedded `regex.ReplaceAllString(s, "")` from main.go:270/395. -/
def regexReplaceAll (s : String) : String := ⟨rrAux s.data⟩

/-- Decides whether the regexp matches at some position of the list. -/
def hasMatchAux : List Char → Bool
  | [] => false
  | c :: cs => (tryMatch (c :: cs)).isSome || hasMatchAux cs

/-- Decides whether the regexp matches at some position of the string. -/
def hasMatch (s : String) : Bool := hasMatchAux s.data

theorem rrAux_of_no_match : ∀ l : List Char, hasMatchAux l = false → rrAux l = l := by
  intro l
  induction l with
  | nil => intro _; rfl
  | cons c cs ih =>
    intro h
    simp only [hasMatchAux, Bool.or_eq_false_iff] at h
    rw [rrAux_cons]
    cases hm : tryMatch (c :: cs) with
    | some r => rw [hm] at h; simp [Option.isSome] at h
    | none => simp [ih h.2]

theorem regexReplaceAll_of_no_match (s : String) (h : hasMatch s = false) :
    regexReplaceAll s = s := by
  unfold regexReplaceAll
  rw [rrAux_of_no_match s.data h]

/-- Decides whether `resourceVersion: "<digits>"` occurs at the head. -/
def rvOccAt (l : List Char) : Bool :=
  match matchLit rvLit l with
  | some r₁ =>
    match r₁.takeWhile Char.isDigit, r₁.dropWhile Char.isDigit with
    | _ :: _, '"' :: _ => true
    | _, _ => false
  | none => false

/-- Decides whether `resourceVersion: "<digits>"` occurs anywhere in the list. -/
def hasRVOccAux : List Char → Bool
  | [] => false
  | c :: cs => rvOccAt (c :: cs) || hasRVOccAux cs

/-- Decides whether the volatile field pattern `resourceVersion: "<digits>"`
occurs anywhere in the string. -/
def hasRVOcc (s : String) : Bool := hasRVOccAux s.data

/-- Status field of an extensions.Ingress, an opaque third-party payload;
the zero value is the empty payload, as `extensions.IngressStatus{}` is. -/
structure IngressStatus where
  raw : String
deriving DecidableEq

/-- Zero value `extensions.IngressStatus{}` assigned at main.go:384. -/
def IngressStatus.zero : IngressStatus := ⟨""⟩

/-- Status field of an api.Service, an opaque third-party payload; the zero
value is the empty payload, as `api.ServiceStatus{}` is. -/
structure ServiceStatus where
  raw : String
deriving DecidableEq

/-- Zero value `api.ServiceStatus{}` assigned at main.go:387. -/
def ServiceStatus.zero : ServiceStatus := ⟨""⟩

/-- A runtime.Object handled by `marshalYaml`: an Ingress or a Service
(the two kinds whose Status the code zeroes before printing) or any other
object, carried with its third-party YAML serialization. -/
inductive RuntimeObject where
  | ingress (spec : String) (status : IngressStatus)
  | service (spec : String) (status : ServiceStatus)
  | other (payload : String)
deriving DecidableEq

/-- The type-assertion block of marshalYaml (main.go:383-388): Ingress and
Service objects get their Status field set to its zero value, in place;
other objects are untouched. -/
def zeroStatusObj : RuntimeObject → RuntimeObject
  | .ingress s _ => .ingress s IngressStatus.zero
  | .service s _ => .service s ServiceStatus.zero
  | o => o

/-- The marshalYaml function (main.go:376-396), parametric in the
third-party serializer `printer` (the YAMLPrinter's PrintObj). It writes
the apiVersion and kind header lines, zeroes the Status of Ingress and
Service objects (mutating the object passed in, modelled by returning the
updated object as the second component), serializes the object into the
same buffer, and applies the regexp substitution to the whole buffer. -/
def marshalYaml (printer : RuntimeObject → String) (kind apiVersion : String)
    (obj : RuntimeObject) : String × RuntimeObject :=
  (regexReplaceAll ("apiVersion: " ++ apiVersion ++ "\n" ++ "kind: " ++ kind ++ "\n" ++
      printer (zeroStatusObj obj)),
   zeroStatusObj obj)

/-- The `objectToYaml` template function (main.go:289-295): it returns the
string produced by marshalYaml (errors from the serializer are logged and
ignored; the total `printer` parameter never errors). -/
def objectToYaml (printer : RuntimeObject → String) (kind apiVersion : String)
    (obj : RuntimeObject) : String :=
  (marshalYaml printer kind apiVersion obj).1

/-- A typed list returned by the API, with its Items (main.go's
runtime.Object list types, accessed as `.Runtime.Items` in the template). -/
structure RuntimeList where
  Items : List RuntimeObject
deriving DecidableEq

/-- The k8sObject struct (main.go:273-277). -/
structure k8sObject where
  APIVersion : String
  Kind : String
  Runtime : RuntimeList
deriving DecidableEq

/-- The fixed type map returned by newMappingFactoring (main.go:180-267),
as an association list in source order; each entry carries the Kind string
of the map literal and an empty Runtime list. -/
def newMappingFactoring : List (String × k8sObject) :=
  [("configmaps", ⟨"", "ConfigMap", ⟨[]⟩⟩),
   ("daemonsets", ⟨"", "DaemonSet", ⟨[]⟩⟩),
   ("deployments", ⟨"", "Deployment", ⟨[]⟩⟩),
   ("endpoints", ⟨"", "Endpoints", ⟨[]⟩⟩),
   ("horizontalpodautoscalers", ⟨"", "ConfigMap", ⟨[]⟩⟩),
   ("ingresses", ⟨"", "Ingress", ⟨[]⟩⟩),
   ("jobs", ⟨"", "Job", ⟨[]⟩⟩),
   ("limitranges", ⟨"", "LimitRange", ⟨[]⟩⟩),
   ("networkpolicies", ⟨"", "NetworkPolicy", ⟨[]⟩⟩),
   ("persistentvolumeclaims", ⟨"", "PersistentVolumeClaim", ⟨[]⟩⟩),
   ("persistentvolumes", ⟨"", "PersistentVolume", ⟨[]⟩⟩),
   ("podsecuritypolicies", ⟨"", "PodSecurityPolicy", ⟨[]⟩⟩),
   ("podtemplates", ⟨"", "PodTemplate", ⟨[]⟩⟩),
   ("replicasets", ⟨"", "ReplicaSet", ⟨[]⟩⟩),
   ("replicationcontrollers", ⟨"", "ReplicationController", ⟨[]⟩⟩),
   ("resourcequotas", ⟨"", "ConfigMap", ⟨[]⟩⟩),
   ("services", ⟨"", "Service", ⟨[]⟩⟩),
   ("secrets", ⟨"", "Secret", ⟨[]⟩⟩),
   ("statefulsets", ⟨"", "StatefulSet", ⟨[]⟩⟩),
   ("storageclasses", ⟨"", "StorageClass", ⟨[]⟩⟩),
   ("thirdpartyresources", ⟨"", "ThirdPartyResource", ⟨[]⟩⟩)]

/-- The keys of the type map, in source order. -/
def mappingKeys : List String := newMappingFactoring.map Prod.fst

/-- Kind string recorded in the type map for a given key. -/
def kindOf (t : String) : String :=
  ((newMappingFactoring.lookup t).map k8sObject.Kind).getD ""

/-- The apiVersion chosen by the switch in dumpNamespace (main.go:311-330). -/
def apiVersionFor (t : String) : String :=
  if t = "horizontalpodautoscalers" then "extensions/v1beta1"
  else if t = "jobs" then "batch/v2alpha1"
  else if t = "statefulsets" then "apps/v1beta1"
  else if t = "storageclasses" then "storage.k8s.io/v1beta1"
  else if t = "daemonsets" ∨ t = "deployments" ∨ t = "ingresses" ∨
          t = "networkpolicies" ∨ t = "podsecuritypolicies" ∨
          t = "replicasets" ∨ t = "thirdpartyresources" then "extensions/v1beta1"
  else "v1"

/-- The skipType function (main.go:365-372): linear scan for an element
equal to `skip`. -/
def skipType (skip : String) : List String → Bool
  | [] => false
  | name :: names => if skip = name then true else skipType skip names

/-- Default value of the --skip-types flag (main.go:40). -/
def defaultSkipTypes : List String := ["serviceaccount"]

/-- The set of resource types the dump loop queries: the mapping keys
minus the skipped types (main.go:302-306). Go iterates the map in an
unspecified order; the model fixes the source order, which no claim
depends on. -/
def queriedTypes (skipTypesArg : List String) : List String :=
  mappingKeys.filter (fun t => !(skipType t skipTypesArg))

/-- Result of one REST query (main.go:332-337): the decoded item list, a
NotFound error, or any other error. -/
inductive QueryResult where
  | ok (items : List RuntimeObject)
  | notFound
  | otherError (msg : String)

/-- Items decoded into `result.Runtime` by the query; on NotFound the list
object keeps its zero (empty) Items. -/
def itemsOf : QueryResult → List RuntimeObject
  | .ok items => items
  | _ => []

/-- Discriminator for the NotFound error. -/
def isNotFound : QueryResult → Bool
  | .notFound => true
  | _ => false

/-- Discriminator for a non-NotFound error. -/
def isOtherError : QueryResult → Bool
  | .otherError _ => true
  | _ => false

/-- Error message recorded at main.go:343 when a type has no objects. -/
def notFoundMessage (objectType ns : String) : String :=
  "there is no object of type " ++ objectType ++ " in namespace " ++ ns

/-- The query loop of dumpNamespace (main.go:302-348) over the given list
of types: the first non-NotFound query error aborts with the wrapped
error; otherwise it accumulates the notFound messages and the per-type
data entries, in loop order. -/
def dumpLoop (env : String → QueryResult) (ns : String) :
    List String → Except String (List String × List (String × k8sObject))
  | [] => .ok ([], [])
  | t :: ts =>
    match env t with
    | .otherError m => .error ("unexpected error querying type: " ++ m)
    | r =>
      match dumpLoop env ns ts with
      | .error e => .error e
      | .ok (nf, data) =>
        .ok ((if isNotFound r then notFoundMessage t ns :: nf else nf),
             (t, ⟨apiVersionFor t, kindOf t, ⟨itemsOf r⟩⟩) :: data)

/-- NotFound messages the loop accumulates for the given type list. -/
def collectNotFoundList (env : String → QueryResult) (ns : String)
    (l : List String) : List String :=
  (l.filter (fun t => isNotFound (env t))).map (fun t => notFoundMessage t ns)

/-- Per-type data entries the loop accumulates for the given type list. -/
def collectEntriesList (env : String → QueryResult) (l : List String) :
    List (String × k8sObject) :=
  l.map (fun t => (t, ⟨apiVersionFor t, kindOf t, ⟨itemsOf (env t)⟩⟩))

/-- Rendering of the `range $i, $v := .notFound` block of the template. -/
def renderNotFound (notFound : List String) : String :=
  String.join (notFound.map (fun v => "\n# " ++ v))

/-- Rendering of the inner `range $item := $v.Runtime.Items` block. -/
def renderItem (printer : RuntimeObject → String) (kind apiVersion : String)
    (item : RuntimeObject) : String :=
  "\n" ++ objectToYaml printer kind apiVersion item ++ "\n\n---\n"

/-- Rendering of one key of the `range $k, $v := .types` block: a type
produces a `# <key>` section only when its Items list is nonempty. -/
def renderSection (printer : RuntimeObject → String) (k : String)
    (v : k8sObject) : String :=
  if v.Runtime.Items.length = 0 then ""
  else "\n# " ++ k ++ "\n" ++
    String.join (v.Runtime.Items.map (renderItem printer v.Kind v.APIVersion)) ++ "\n"

/-- text/template iterates a map in increasing key order. -/
def sortTypes (types : List (String × k8sObject)) : List (String × k8sObject) :=
  List.insertionSort (fun a b => a.1 ≤ b.1) types

/-- Rendering of the `iterate` sub-template (main.go:81-92). -/
def renderIterate (printer : RuntimeObject → String)
    (types : List (String × k8sObject)) : String :=
  "\n" ++ String.join ((sortTypes types).map
    (fun p => renderSection printer p.1 p.2)) ++ "\n"

/-- Rendering of the whole template constant (main.go:66-93) on the
content map built by dumpNamespace. -/
def renderTemplate (printer : RuntimeObject → String) (notFound : List String)
    (name : String) (types : List (String × k8sObject)) : String :=
  "\n# errors:\n" ++ renderNotFound notFound ++
  "\n\n# namespace\napiVersion: v1\nkind: Namespace\nmetadata:\n  name: " ++ name ++
  "\n\n---\n\n" ++ renderIterate printer types ++ "\n\n" ++ "\n"

/-- Output path chosen at main.go:360. -/
def outputPath (output ns : String) : String := output ++ "/" ++ ns ++ ".yaml"

/-- The dumpNamespace function (main.go:281-362), parametric in the
serializer and the query environment for this namespace: on success it
returns the single (path, content) pair handed to ioutil.WriteFile; on a
non-NotFound query error it returns the wrapped error and performs no
write. -/
def dumpNamespace (printer : RuntimeObject → String) (env : String → QueryResult)
    (ns output : String) (skipTypesArg : List String) :
    Except String (String × String) :=
  match dumpLoop env ns (queriedTypes skipTypesArg) with
  | .error e => .error e
  | .ok (nf, data) => .ok (outputPath output ns, renderTemplate printer nf ns data)

/-- An api.Namespace as dumpCluster consumes it: its name and the
Status.Phase string. -/
structure NamespaceInfo where
  name : String
  phase : String
deriving DecidableEq

/-- The api.NamespaceTerminating phase constant. -/
def namespaceTerminating : String := "Terminating"

/-- The dumpCluster function (main.go:141-178): with a non-empty
--namespace flag it dumps exactly that namespace; otherwise it dumps every
listed namespace whose phase is not Terminating. Each element pairs the
namespace name with its dumpNamespace result. -/
def dumpCluster (printer : RuntimeObject → String)
    (env : String → String → QueryResult) (nss : List NamespaceInfo)
    (output namespaceFlag : String) (skipTypesArg : List String) :
    List (String × Except String (String × String)) :=
  if namespaceFlag ≠ "" then
    [(namespaceFlag, dumpNamespace printer (env namespaceFlag) namespaceFlag output skipTypesArg)]
  else
    (nss.filter (fun n => !(n.phase = namespaceTerminating : Bool))).map
      (fun n => (n.name, dumpNamespace printer (env n.name) n.name output skipTypesArg))

/-- The (path, content) pairs actually written by a cluster dump; an
errored namespace contributes no write (glog.Fatalf aborts). -/
def clusterWrites (results : List (String × Except String (String × String))) :
    List (String × String) :=
  results.filterMap (fun p => match p.2 with | .ok w => some w | .error _ => none)

theorem dumpLoop_ok (env : String → QueryResult) (ns : String) :
    ∀ l : List String, (∀ t ∈ l, isOtherError (env t) = false) →
    dumpLoop env ns l = .ok (collectNotFoundList env ns l, collectEntriesList env l) := by
  intro l
  induction l with
  | nil => intro _; rfl
  | cons t ts ih =>
    intro h
    have ht := h t (by simp)
    have hts : ∀ s ∈ ts, isOtherError (env s) = false := fun s hs => h s (by simp [hs])
    simp only [dumpLoop]
    cases he : env t with
    | otherError m => rw [he] at ht; simp [isOtherError] at ht
    | ok items =>
      rw [ih hts]
      simp [collectNotFoundList, collectEntriesList, isNotFound, itemsOf, he,
        List.filter_cons]
    | notFound =>
      rw [ih hts]
      simp [collectNotFoundList, collectEntriesList, isNotFound, itemsOf, he,
        List.filter_cons]

theorem dumpLoop_error (env : String → QueryResult) (ns : String) :
    ∀ l : List String, (∃ t ∈ l, isOtherError (env t) = true) →
    ∃ e, dumpLoop env ns l = .error e := by
  intro l
  induction l with
  | nil => intro h; simp at h
  | cons t ts ih =>
    intro h
    cases he : env t with
    | otherError m =>
      exact ⟨"unexpected error querying type: " ++ m, by simp [dumpLoop, he]⟩
    | ok items =>
      have : ∃ s ∈ ts, isOtherError (env s) = true := by
        rcases h with ⟨s, hs, hs'⟩
        rcases List.mem_cons.1 hs with rfl | hmem
        · rw [he] at hs'; simp [isOtherError] at hs'
        · exact ⟨s, hmem, hs'⟩
      rcases ih this with ⟨e, hee⟩
      exact ⟨e, by simp [dumpLoop, he, hee]⟩
    | notFound =>
      have : ∃ s ∈ ts, isOtherError (env s) = true := by
        rcases h with ⟨s, hs, hs'⟩
        rcases List.mem_cons.1 hs with rfl | hmem
        · rw [he] at hs'; simp [isOtherError] at hs'
        · exact ⟨s, hmem, hs'⟩
      rcases ih this with ⟨e, hee⟩
      exact ⟨e, by simp [dumpLoop, he, hee]⟩

theorem join_cons (s : String) (l : List String) :
    String.join (s :: l) = s ++ String.join l := by
  rw [String.join_eq, String.join_eq]
  apply String.ext
  simp [String.data_append]

theorem join_contains (f : String → String) : ∀ (l : List String) (x : String),
    x ∈ l → ∃ pre post, String.join (l.map f) = pre ++ f x ++ post := by
  intro l
  induction l with
  | nil => intro x hx; simp at hx
  | cons a as ih =>
    intro x hx
    rcases List.mem_cons.1 hx with rfl | hmem
    · refine ⟨"", String.join (as.map f), ?_⟩
      rw [List.map_cons, join_cons]
      apply String.ext
      simp [String.data_append]
    · rcases ih x hmem with ⟨pre, post, hp⟩
      refine ⟨f a ++ pre, post, ?_⟩
      rw [List.map_cons, join_cons, hp]
      apply String.ext
      simp [String.data_append]

theorem notFoundMessage_inj {a b ns : String}
    (h : notFoundMessage a ns = notFoundMessage b ns) : a = b := by
  have hd := congrArg String.data h
  simp only [notFoundMessage, String.data_append] at hd
  have h1 := List.append_cancel_right hd
  have h2 := List.append_cancel_right h1
  exact String.ext (List.append_cancel_left h2)

theorem outputPath_inj {output a b : String}
    (h : outputPath output a = outputPath output b) : a = b := by
  have hd := congrArg String.data h
  simp only [outputPath, String.data_append] at hd
  have h1 := List.append_cancel_right hd
  exact String.ext (List.append_cancel_left h1)

theorem keys_collectEntriesList (env : String → QueryResult) (l : List String) :
    (collectEntriesList env l).map Prod.fst = l := by
  induction l with
  | nil => rfl
  | cons t ts ih =>
    simp only [collectEntriesList, List.map_cons] at ih ⊢
    rw [ih]

theorem skipType_eq_mem (s : String) : ∀ names : List String,
    skipType s names = true ↔ s ∈ names := by
  intro names
  induction names with
  | nil => simp [skipType]
  | cons n rest ih =>
    simp only [skipType]
    by_cases h : s = n
    · simp [h]
    · simp [h, ih]

/-- C1. For every namespace dumped without a hard query error, dumpNamespace
writes exactly one output file: its result is the single pair handed to
ioutil.WriteFile, whose path is the output directory followed by the
namespace name and the .yaml extension, and whose content is the rendered
template for that namespace. -/
theorem dumpNamespace_single_file (printer : RuntimeObject → String)
    (env : String → QueryResult) (ns output : String) (skips : List String)
    (h : ∀ t ∈ queriedTypes skips, isOtherError (env t) = false) :
    dumpNamespace printer env ns output skips =
      .ok (output ++ "/" ++ ns ++ ".yaml",
        renderTemplate printer (collectNotFoundList env ns (queriedTypes skips)) ns
          (collectEntriesList env (queriedTypes skips))) := by
  unfold dumpNamespace
  rw [dumpLoop_ok env ns (queriedTypes skips) h]
  rfl

theorem dumpNamespace_single_file_witness :
    dumpNamespace (fun _ => "") (fun _ => .ok []) "default" "out" [] =
      .ok ("out" ++ "/" ++ "default" ++ ".yaml",
        renderTemplate (fun _ => "")
          (collectNotFoundList (fun _ => .ok []) "default" (queriedTypes [])) "default"
          (collectEntriesList (fun _ => .ok []) (queriedTypes []))) :=
  dumpNamespace_single_file (fun _ => "") (fun _ => .ok []) "default" "out" []
    (fun _ _ => rfl)

/-- C2. If a query hits NotFound, the dump of the namespace continues, the
message "there is no object of type (type) in namespace (ns)" is recorded
in the notFound list that the template renders as the errors section, and
the file is still written; if a query fails with any other error,
dumpNamespace returns a wrapped error, and since the error return precedes
the WriteFile call no output file is produced for that namespace. -/
theorem dumpNamespace_error_handling (printer : RuntimeObject → String)
    (env₁ env₂ : String → QueryResult) (ns output : String) (skips : List String)
    (t u : String) (m : String)
    (h₁ : ∀ s ∈ queriedTypes skips, isOtherError (env₁ s) = false)
    (h₂ : t ∈ queriedTypes skips) (h₃ : env₁ t = .notFound)
    (h₄ : u ∈ queriedTypes skips) (h₅ : env₂ u = .otherError m) :
    (dumpNamespace printer env₁ ns output skips =
        .ok (outputPath output ns,
          renderTemplate printer (collectNotFoundList env₁ ns (queriedTypes skips)) ns
            (collectEntriesList env₁ (queriedTypes skips))) ∧
      notFoundMessage t ns ∈ collectNotFoundList env₁ ns (queriedTypes skips) ∧
      ∃ pre post, renderNotFound (collectNotFoundList env₁ ns (queriedTypes skips)) =
        pre ++ ("\n# " ++ notFoundMessage t ns) ++ post) ∧
    ∃ e, dumpNamespace printer env₂ ns output skips = .error e := by
  have hmem : notFoundMessage t ns ∈ collectNotFoundList env₁ ns (queriedTypes skips) := by
    unfold collectNotFoundList
    exact List.mem_map.2 ⟨t, List.mem_filter.2 ⟨h₂, by simp [h₃, isNotFound]⟩, rfl⟩
  refine ⟨⟨?_, hmem, ?_⟩, ?_⟩
  · unfold dumpNamespace
    rw [dumpLoop_ok env₁ ns (queriedTypes skips) h₁]
  · exact join_contains (fun v => "\n# " ++ v) _ _ hmem
  · have : ∃ s ∈ queriedTypes skips, isOtherError (env₂ s) = true :=
      ⟨u, h₄, by simp [h₅, isOtherError]⟩
    rcases dumpLoop_error env₂ ns (queriedTypes skips) this with ⟨e, he⟩
    exact ⟨e, by unfold dumpNamespace; rw [he]⟩

theorem dumpNamespace_error_handling_witness :
    ((dumpNamespace (fun _ => "")
        (fun s => if s = "configmaps" then .notFound else .ok []) "ns1" "out" [] =
        .ok (outputPath "out" "ns1",
          renderTemplate (fun _ => "")
            (collectNotFoundList (fun s => if s = "configmaps" then .notFound else .ok [])
              "ns1" (queriedTypes [])) "ns1"
            (collectEntriesList (fun s => if s = "configmaps" then .notFound else .ok [])
              (queriedTypes [])))) ∧
      notFoundMessage "configmaps" "ns1" ∈
        collectNotFoundList (fun s => if s = "configmaps" then .notFound else .ok [])
          "ns1" (queriedTypes []) ∧
      ∃ pre post, renderNotFound
          (collectNotFoundList (fun s => if s = "configmaps" then .notFound else .ok [])
            "ns1" (queriedTypes [])) =
        pre ++ ("\n# " ++ notFoundMessage "configmaps" "ns1") ++ post) ∧
    ∃ e, dumpNamespace (fun _ => "") (fun _ => .otherError "boom") "ns1" "out" [] =
      .error e :=
  dumpNamespace_error_handling (fun _ => "")
    (fun s => if s = "configmaps" then .notFound else .ok [])
    (fun _ => .otherError "boom") "ns1" "out" [] "configmaps" "configmaps" "boom"
    (by intro s _; by_cases h : s = "configmaps" <;> simp [h, isOtherError])
    (by decide) (by simp) (by decide) rfl

/-- C3. skipType returns true exactly when its first argument equals some
element of its second argument; a skipped type is never queried, appears
in no data entry, and contributes no not-found message. -/
theorem skipped_types_excluded (s : String) (names : List String)
    (env : String → QueryResult) (ns : String) (skips : List String)
    (t : String) (e : k8sObject) :
    (skipType s names = true ↔ s ∈ names) ∧
    (t ∈ skips → t ∉ queriedTypes skips) ∧
    (t ∈ skips → (t, e) ∉ collectEntriesList env (queriedTypes skips)) ∧
    (t ∈ skips → notFoundMessage t ns ∉ collectNotFoundList env ns (queriedTypes skips)) := by
  have hq : ∀ x, x ∈ queriedTypes skips → x ∉ skips := by
    intro x hx hxs
    have := (List.mem_filter.1 hx).2
    rw [(skipType_eq_mem x skips).2 hxs] at this
    simp at this
  refine ⟨skipType_eq_mem s names, ?_, ?_, ?_⟩
  · intro ht hmem
    exact hq t hmem ht
  · intro ht hmem
    have : t ∈ (collectEntriesList env (queriedTypes skips)).map Prod.fst :=
      List.mem_map.2 ⟨(t, e), hmem, rfl⟩
    rw [keys_collectEntriesList] at this
    exact hq t this ht
  · intro ht hmem
    unfold collectNotFoundList at hmem
    rcases List.mem_map.1 hmem with ⟨x, hx, hmsg⟩
    have hxq : x ∈ queriedTypes skips := (List.mem_filter.1 hx).1
    have : x = t := notFoundMessage_inj hmsg
    subst this
    exact hq x hxq ht

theorem skipped_types_excluded_witness :
    (skipType "configmaps" ["configmaps"] = true ↔ "configmaps" ∈ ["configmaps"]) ∧
    "configmaps" ∉ queriedTypes ["configmaps"] ∧
    ("configmaps", (⟨"", "", ⟨[]⟩⟩ : k8sObject)) ∉
      collectEntriesList (fun _ => .ok []) (queriedTypes ["configmaps"]) ∧
    notFoundMessage "configmaps" "ns1" ∉
      collectNotFoundList (fun _ => .ok []) "ns1" (queriedTypes ["configmaps"]) := by
  have h := skipped_types_excluded "configmaps" ["configmaps"] (fun _ => .ok [])
    "ns1" ["configmaps"] "configmaps" ⟨"", "", ⟨[]⟩⟩
  exact ⟨h.1, h.2.1 (by simp), h.2.2.1 (by simp), h.2.2.2 (by simp)⟩

/-- C4. The set of types queried for a namespace is exactly the 21 keys of
the map returned by newMappingFactoring minus the skip-types list, each
queried once. -/
theorem queried_types_exact (skips : List String) (t : String) :
    mappingKeys = ["configmaps", "daemonsets", "deployments", "endpoints",
      "horizontalpodautoscalers", "ingresses", "jobs", "limitranges",
      "networkpolicies", "persistentvolumeclaims", "persistentvolumes",
      "podsecuritypolicies", "podtemplates", "replicasets",
      "replicationcontrollers", "resourcequotas", "services", "secrets",
      "statefulsets", "storageclasses", "thirdpartyresources"] ∧
    mappingKeys.length = 21 ∧
    (queriedTypes skips).Nodup ∧
    (t ∈ queriedTypes skips ↔ t ∈ mappingKeys ∧ skipType t skips = false) ∧
    (queriedTypes skips).count t ≤ 1 := by
  have hkeys : mappingKeys = ["configmaps", "daemonsets", "deployments", "endpoints",
      "horizontalpodautoscalers", "ingresses", "jobs", "limitranges",
      "networkpolicies", "persistentvolumeclaims", "persistentvolumes",
      "podsecuritypolicies", "podtemplates", "replicasets",
      "replicationcontrollers", "resourcequotas", "services", "secrets",
      "statefulsets", "storageclasses", "thirdpartyresources"] := by decide
  have hnodup : mappingKeys.Nodup := by decide
  have hqnodup : (queriedTypes skips).Nodup := hnodup.filter _
  refine ⟨hkeys, by decide, hqnodup, ?_, List.nodup_iff_count_le_one.1 hqnodup t⟩
  unfold queriedTypes
  rw [List.mem_filter]
  simp

theorem queried_types_exact_witness :
    "configmaps" ∈ queriedTypes ["secrets"] ↔
      "configmaps" ∈ mappingKeys ∧ skipType "configmaps" ["secrets"] = false :=
  (queried_types_exact ["secrets"] "configmaps").2.2.2.1

/-- C8. The serviceaccounts type is not a key of the type map, so it is
never queried and never contributes a data entry, whatever the skip-types
flag holds; the default skip-types value [serviceaccount] matches no key,
so it leaves the queried set unchanged. -/
theorem serviceaccounts_never_dumped (env : String → QueryResult)
    (skips : List String) (e : k8sObject) :
    defaultSkipTypes = ["serviceaccount"] ∧
    "serviceaccounts" ∉ mappingKeys ∧
    "serviceaccounts" ∉ queriedTypes skips ∧
    ("serviceaccounts", e) ∉ collectEntriesList env (queriedTypes skips) ∧
    queriedTypes defaultSkipTypes = queriedTypes [] := by
  have hnotkey : "serviceaccounts" ∉ mappingKeys := by decide
  refine ⟨rfl, hnotkey, ?_, ?_, by decide⟩
  · intro hmem
    exact hnotkey (List.mem_filter.1 hmem).1
  · intro hmem
    have : "serviceaccounts" ∈ (collectEntriesList env (queriedTypes skips)).map Prod.fst :=
      List.mem_map.2 ⟨_, hmem, rfl⟩
    rw [keys_collectEntriesList] at this
    exact hnotkey (List.mem_filter.1 this).1

theorem serviceaccounts_never_dumped_witness :
    "serviceaccounts" ∉ queriedTypes ["serviceaccount"] :=
  (serviceaccounts_never_dumped (fun _ => .ok []) ["serviceaccount"]
    ⟨"", "", ⟨[]⟩⟩).2.2.1

theorem dumpNamespace_ok_path {printer : RuntimeObject → String}
    {env : String → QueryResult} {ns output : String} {skips : List String}
    {w : String × String} (h : dumpNamespace printer env ns output skips = .ok w) :
    w.1 = outputPath output ns := by
  unfold dumpNamespace at h
  cases hl : dumpLoop env ns (queriedTypes skips) with
  | error e => rw [hl] at h; simp at h
  | ok p =>
    rw [hl] at h
    obtain ⟨nf, data⟩ := p
    simp at h
    rw [← h]

/-- C9. In cluster-wide mode, a namespace whose phase is Terminating is
never handed to dumpNamespace and no file is written for it. -/
theorem terminating_namespace_not_dumped (printer : RuntimeObject → String)
    (env : String → String → QueryResult) (nss : List NamespaceInfo)
    (output : String) (skips : List String) (n : NamespaceInfo)
    (h₁ : n ∈ nss) (h₂ : n.phase = namespaceTerminating)
    (h₃ : (nss.map NamespaceInfo.name).Nodup) :
    n.name ∉ (dumpCluster printer env nss output "" skips).map Prod.fst ∧
    ∀ content, (outputPath output n.name, content) ∉
      clusterWrites (dumpCluster printer env nss output "" skips) := by
  have hinj := List.inj_on_of_nodup_map h₃
  have hmemname : ∀ m ∈ nss.filter (fun x => !(x.phase = namespaceTerminating : Bool)),
      m.name = n.name → False := by
    intro m hm hname
    have hmnss := (List.mem_filter.1 hm).1
    have hpred := (List.mem_filter.1 hm).2
    have : m = n := hinj hmnss h₁ hname
    subst this
    rw [h₂] at hpred
    simp at hpred
  constructor
  · intro hmem
    simp only [dumpCluster, ne_eq, not_true_eq_false, if_false, List.map_map] at hmem
    rcases List.mem_map.1 hmem with ⟨m, hm, hname⟩
    exact hmemname m hm hname
  · intro content hmem
    simp only [dumpCluster, ne_eq, not_true_eq_false, if_false] at hmem
    unfold clusterWrites at hmem
    rcases List.mem_filterMap.1 hmem with ⟨p, hp, hpw⟩
    rcases List.mem_map.1 hp with ⟨m, hm, hpm⟩
    subst hpm
    cases hdn : dumpNamespace printer (env m.name) m.name output skips with
    | error e => rw [hdn] at hpw; simp at hpw
    | ok w =>
      rw [hdn] at hpw
      simp at hpw
      have hpath := dumpNamespace_ok_path hdn
      rw [hpw] at hpath
      exact hmemname m hm (outputPath_inj hpath).symm

theorem terminating_namespace_not_dumped_witness :
    "dying" ∉ (dumpCluster (fun _ => "") (fun _ _ => .ok [])
        [⟨"dying", "Terminating"⟩, ⟨"alive", "Active"⟩] "out" "" []).map Prod.fst ∧
    ∀ content, (outputPath "out" "dying", content) ∉
      clusterWrites (dumpCluster (fun _ => "") (fun _ _ => .ok [])
        [⟨"dying", "Terminating"⟩, ⟨"alive", "Active"⟩] "out" "" []) :=
  terminating_namespace_not_dumped (fun _ => "") (fun _ _ => .ok [])
    [⟨"dying", "Terminating"⟩, ⟨"alive", "Active"⟩] "out" [] ⟨"dying", "Terminating"⟩
    (by simp) rfl (by simp)

/-- C7. The dump of a namespace depends only on its own name, its query
results, the skip-types list and the output directory: the same (name,
result) pair occurs in any cluster dump that lists the namespace as
non-terminating, whatever the other namespaces are or in what order the
environments differ elsewhere. -/
theorem namespace_dump_independent (printer : RuntimeObject → String)
    (env₁ env₂ : String → String → QueryResult) (nss₁ nss₂ : List NamespaceInfo)
    (n : NamespaceInfo) (output : String) (skips : List String)
    (henv : env₁ n.name = env₂ n.name) (h₁ : n ∈ nss₁) (h₂ : n ∈ nss₂)
    (hph : n.phase ≠ namespaceTerminating) :
    dumpNamespace printer (env₁ n.name) n.name output skips =
      dumpNamespace printer (env₂ n.name) n.name output skips ∧
    (n.name, dumpNamespace printer (env₁ n.name) n.name output skips) ∈
      dumpCluster printer env₁ nss₁ output "" skips ∧
    (n.name, dumpNamespace printer (env₁ n.name) n.name output skips) ∈
      dumpCluster printer env₂ nss₂ output "" skips := by
  have heq : dumpNamespace printer (env₁ n.name) n.name output skips =
      dumpNamespace printer (env₂ n.name) n.name output skips := by rw [henv]
  refine ⟨heq, ?_, ?_⟩
  · simp only [dumpCluster, ne_eq, not_true_eq_false, if_false]
    exact List.mem_map.2 ⟨n, List.mem_filter.2 ⟨h₁, by simp [hph]⟩, rfl⟩
  · simp only [dumpCluster, ne_eq, not_true_eq_false, if_false]
    rw [heq]
    exact List.mem_map.2 ⟨n, List.mem_filter.2 ⟨h₂, by simp [hph]⟩, rfl⟩

theorem namespace_dump_independent_witness :
    dumpNamespace (fun _ => "") ((fun _ _ => QueryResult.ok []) "a") "a" "out" [] =
      dumpNamespace (fun _ => "")
        ((fun ns _ => if ns = "b" then QueryResult.notFound else QueryResult.ok []) "a")
        "a" "out" [] ∧
    ("a", dumpNamespace (fun _ => "") ((fun _ _ => QueryResult.ok []) "a") "a" "out" []) ∈
      dumpCluster (fun _ => "") (fun _ _ => QueryResult.ok [])
        [⟨"a", "Active"⟩] "out" "" [] ∧
    ("a", dumpNamespace (fun _ => "") ((fun _ _ => QueryResult.ok []) "a") "a" "out" []) ∈
      dumpCluster (fun _ => "")
        (fun ns _ => if ns = "b" then QueryResult.notFound else QueryResult.ok [])
        [⟨"b", "Active"⟩, ⟨"a", "Active"⟩] "out" "" [] :=
  namespace_dump_independent (fun _ => "") (fun _ _ => QueryResult.ok [])
    (fun ns _ => if ns = "b" then QueryResult.notFound else QueryResult.ok [])
    [⟨"a", "Active"⟩] [⟨"b", "Active"⟩, ⟨"a", "Active"⟩] ⟨"a", "Active"⟩ "out" []
    (by funext t; simp) (by simp) (by simp) (by decide)

/-- C10. marshalYaml sets the Status of every Ingress and Service object to
its zero value before serialization, mutating the object passed in
(returned as the second component), leaves the other fields and all other
objects unchanged, and serializes the zero-status object, so the rendered
document is independent of the original status. -/
theorem marshalYaml_zeroes_status (printer : RuntimeObject → String)
    (kind av ispec sspec : String) (ist ist' : IngressStatus)
    (sst sst' : ServiceStatus) (payload : String) :
    (marshalYaml printer kind av (.ingress ispec ist)).2 =
      .ingress ispec IngressStatus.zero ∧
    (marshalYaml printer kind av (.service sspec sst)).2 =
      .service sspec ServiceStatus.zero ∧
    (marshalYaml printer kind av (.other payload)).2 = .other payload ∧
    (marshalYaml printer kind av (.ingress ispec ist)).1 =
      (marshalYaml printer kind av (.ingress ispec ist')).1 ∧
    (marshalYaml printer kind av (.service sspec sst)).1 =
      (marshalYaml printer kind av (.service sspec sst')).1 ∧
    (marshalYaml printer kind av (.ingress ispec ist)).1 =
      regexReplaceAll ("apiVersion: " ++ av ++ "\n" ++ "kind: " ++ kind ++ "\n" ++
        printer (.ingress ispec IngressStatus.zero)) :=
  ⟨rfl, rfl, rfl, rfl, rfl, rfl⟩

/-- C5 counterexample. A concrete object whose serialized YAML is a legal
block-scalar payload: after the single-pass substitution the returned
string still contains an occurrence of `resourceVersion: "<digits>"`,
spliced from the text surrounding the deleted match, refuting the claim
that the returned string never contains such an occurrence. -/
theorem marshalYaml_leftover_resourceVersion :
    hasRVOcc (marshalYaml
      (fun o => match o with | .other p => p | _ => "")
      "ConfigMap" "v1"
      (.other "data: |\n  resourceVersion: \"5resourceVersion: \"1\"\"\n")).1 = true := by
  decide

/-- C5 amended. marshalYaml applies the substitution to the whole buffer
(header lines plus rendered YAML), deleting each successive leftmost
non-overlapping match of the regexp; a buffer without any match is
returned unchanged, and whenever a match starts at the scan position the
entire match is deleted and scanning resumes after it — but a deletion can
splice the surrounding text into a new occurrence, so the result is not
guaranteed to be free of the pattern. -/
theorem marshalYaml_substitution_semantics (printer : RuntimeObject → String)
    (kind av : String) (obj : RuntimeObject) :
    (marshalYaml printer kind av obj).1 =
      regexReplaceAll ("apiVersion: " ++ av ++ "\n" ++ "kind: " ++ kind ++ "\n" ++
        printer (zeroStatusObj obj)) ∧
    (∀ s : String, hasMatch s = false → regexReplaceAll s = s) ∧
    (∀ l r : List Char, tryMatch l = some r → rrAux l = rrAux r) := by
  refine ⟨rfl, regexReplaceAll_of_no_match, ?_⟩
  intro l r h
  cases l with
  | nil =>
    have hnone : tryMatch ([] : List Char) = none := rfl
    rw [hnone] at h
    exact Option.noConfusion h
  | cons c cs => rw [rrAux_cons, h]

theorem marshalYaml_substitution_semantics_witness :
    (marshalYaml (fun _ => "ok: true\n") "ConfigMap" "v1" (.other "")).1 =
      regexReplaceAll ("apiVersion: " ++ "v1" ++ "\n" ++ "kind: " ++ "ConfigMap" ++
        "\n" ++ (fun (_ : RuntimeObject) => "ok: true\n") (zeroStatusObj (.other ""))) ∧
    regexReplaceAll "name: x" = "name: x" ∧
    rrAux " resourceVersion: \"7\"rest".data = rrAux "rest".data :=
  ⟨(marshalYaml_substitution_semantics (fun _ => "ok: true\n") "ConfigMap" "v1"
      (.other "")).1,
   (marshalYaml_substitution_semantics (fun _ => "ok: true\n") "ConfigMap" "v1"
      (.other "")).2.1 "name: x" (by decide),
   (marshalYaml_substitution_semantics (fun _ => "ok: true\n") "ConfigMap" "v1"
      (.other "")).2.2 " resourceVersion: \"7\"rest".data "rest".data (by decide)⟩

/-- Header text written by marshalYaml before the final newline. -/
def hdrInit (av k : String) : List Char :=
  ("apiVersion: " ++ av ++ "\nkind: " ++ k).data

/-- Checks that no suffix of the header can start a regexp match that
reaches past the header: every suffix, after its leading whitespace, is
nonempty and starts with neither literal of the regexp. -/
def headerSafeB (init : List Char) : Bool :=
  (List.range init.length).all (fun j =>
    !((init.drop j).dropWhile isWS).isEmpty &&
    !(rvLit.isPrefixOf ((init.drop j).dropWhile isWS)) &&
    !(enLit.isPrefixOf ((init.drop j).dropWhile isWS)))

theorem headerSafeB_head {c : Char} {cs : List Char}
    (h : headerSafeB (c :: cs) = true) :
    (c :: cs).dropWhile isWS ≠ [] ∧
    ¬ rvLit <+: (c :: cs).dropWhile isWS ∧
    ¬ enLit <+: (c :: cs).dropWhile isWS := by
  unfold headerSafeB at h
  rw [List.all_eq_true] at h
  have h0 := h 0 (List.mem_range.2 (by simp))
  simp only [List.drop_zero, Bool.and_eq_true, Bool.not_eq_true'] at h0
  refine ⟨?_, ?_, ?_⟩
  · intro hnil
    rw [hnil] at h0
    simp at h0
  · intro hpre
    rw [← List.isPrefixOf_iff_prefix] at hpre
    rw [h0.1.2] at hpre
    exact Bool.noConfusion hpre
  · intro hpre
    rw [← List.isPrefixOf_iff_prefix] at hpre
    rw [h0.2] at hpre
    exact Bool.noConfusion hpre

theorem headerSafeB_tail {c : Char} {cs : List Char}
    (h : headerSafeB (c :: cs) = true) : headerSafeB cs = true := by
  unfold headerSafeB at h ⊢
  rw [List.all_eq_true] at h ⊢
  intro j hj
  have := h (j + 1) (List.mem_range.2 (by
    have := List.mem_range.1 hj
    simp only [List.length_cons]
    omega))
  simpa using this

theorem matchLit_append_newline : ∀ (lit w body r : List Char), '\n' ∉ lit →
    matchLit lit (w ++ '\n' :: body) = some r → lit <+: w := by
  intro lit
  induction lit with
  | nil => intro w body r _ _; exact List.nil_prefix
  | cons c cs ih =>
    intro w body r hno h
    cases w with
    | nil =>
      simp only [List.nil_append, matchLit] at h
      by_cases hc : c = '\n'
      · exact absurd (hc ▸ List.mem_cons_self c cs) hno
      · rw [if_neg hc] at h; exact Option.noConfusion h
    | cons d ws =>
      simp only [List.cons_append, matchLit] at h
      by_cases hc : c = d
      · rw [if_pos hc] at h
        have hpre := ih ws body r (fun hm => hno (List.mem_cons_of_mem c hm)) h
        rw [hc]
        exact List.cons_prefix_cons.2 ⟨rfl, hpre⟩
      · rw [if_neg hc] at h; exact Option.noConfusion h

theorem tryMatch_none_append (u body : List Char)
    (hw : u.dropWhile isWS ≠ [])
    (h1 : ¬ rvLit <+: u.dropWhile isWS)
    (h2 : ¬ enLit <+: u.dropWhile isWS) :
    tryMatch (u ++ '\n' :: body) = none := by
  have hdrop : (u ++ '\n' :: body).dropWhile isWS =
      u.dropWhile isWS ++ '\n' :: body := by
    rw [List.dropWhile_append]
    simp [List.isEmpty_iff, hw]
  unfold tryMatch
  rw [hdrop]
  cases hm : matchLit rvLit (u.dropWhile isWS ++ '\n' :: body) with
  | some r₁ =>
    exact absurd (matchLit_append_newline rvLit (u.dropWhile isWS) body r₁
      (by decide) hm) h1
  | none =>
    simp only
    cases hm2 : matchLit enLit (u.dropWhile isWS ++ '\n' :: body) with
    | some r₂ =>
      exact absurd (matchLit_append_newline enLit (u.dropWhile isWS) body r₂
        (by decide) hm2) h2
    | none => rfl

theorem rrAux_append_header : ∀ (init : List Char), headerSafeB init = true →
    ∀ body : List Char, rrAux (init ++ '\n' :: body) = init ++ rrAux ('\n' :: body) := by
  intro init
  induction init with
  | nil => intro _ body; rfl
  | cons c cs ih =>
    intro h body
    obtain ⟨hw, h1, h2⟩ := headerSafeB_head h
    have hnone := tryMatch_none_append (c :: cs) body hw h1 h2
    rw [List.cons_append] at hnone ⊢
    rw [rrAux_cons, hnone]
    rw [show rrAux (cs ++ '\n' :: body) = cs ++ rrAux ('\n' :: body) from
      ih (headerSafeB_tail h) body]
    rfl

theorem buffer_data (av k p : String) :
    ("apiVersion: " ++ av ++ "\n" ++ "kind: " ++ k ++ "\n" ++ p).data =
      hdrInit av k ++ '\n' :: p.data := by
  simp only [hdrInit, String.data_append, List.append_assoc]
  rfl

theorem mapping_headers_safe :
    ∀ t ∈ mappingKeys, headerSafeB (hdrInit (apiVersionFor t) (kindOf t)) = true := by
  decide

theorem objectToYaml_header (printer : RuntimeObject → String) (av k : String)
    (obj : RuntimeObject) (hsafe : headerSafeB (hdrInit av k) = true) :
    (objectToYaml printer k av obj).data =
      hdrInit av k ++ rrAux ('\n' :: (printer (zeroStatusObj obj)).data) := by
  show (regexReplaceAll _).data = _
  unfold regexReplaceAll
  rw [buffer_data av k (printer (zeroStatusObj obj))]
  exact rrAux_append_header (hdrInit av k) hsafe (printer (zeroStatusObj obj)).data

/-- C6. A resource type produces a section in the rendered output exactly
when its returned Items list is nonempty: an empty type renders as the
empty string inside the sorted types range, a nonempty one renders its
`# type` header followed by one document per item, each terminated by a
`---` separator, and every document for a mapping key begins with the
apiVersion and kind header lines recorded in the type's entry. -/
theorem sections_iff_nonempty (printer : RuntimeObject → String)
    (nf : List String) (ns : String) (types : List (String × k8sObject))
    (k : String) (v : k8sObject) (t : String) (obj : RuntimeObject) :
    (renderSection printer k v = "" ↔ v.Runtime.Items = []) ∧
    (v.Runtime.Items ≠ [] → renderSection printer k v =
      "\n# " ++ k ++ "\n" ++
        String.join (v.Runtime.Items.map (renderItem printer v.Kind v.APIVersion)) ++
        "\n") ∧
    (renderTemplate printer nf ns types =
      "\n# errors:\n" ++ renderNotFound nf ++
      "\n\n# namespace\napiVersion: v1\nkind: Namespace\nmetadata:\n  name: " ++ ns ++
      "\n\n---\n\n" ++
      ("\n" ++ String.join ((sortTypes types).map
        (fun p => renderSection printer p.1 p.2)) ++ "\n") ++ "\n\n" ++ "\n") ∧
    (t ∈ mappingKeys → ∃ rest, (objectToYaml printer (kindOf t) (apiVersionFor t) obj).data =
      ("apiVersion: " ++ apiVersionFor t ++ "\nkind: " ++ kindOf t).data ++ rest) := by
  refine ⟨?_, ?_, rfl, ?_⟩
  · unfold renderSection
    by_cases hlen : v.Runtime.Items.length = 0
    · simp [hlen, List.length_eq_zero.1 hlen]
    · rw [if_neg hlen]
      constructor
      · intro hs
        have hd := congrArg String.data hs
        simp only [String.data_append] at hd
        simp at hd
      · intro hnil
        exact absurd (by rw [hnil]; rfl) hlen
  · intro hne
    unfold renderSection
    rw [if_neg (fun h0 => hne (List.length_eq_zero.1 h0))]
  · intro ht
    exact ⟨rrAux ('\n' :: (printer (zeroStatusObj obj)).data),
      objectToYaml_header printer (apiVersionFor t) (kindOf t) obj
        (mapping_headers_safe t ht)⟩

theorem sections_iff_nonempty_witness :
    (renderSection (fun _ => "") "configmaps"
        ⟨"v1", "ConfigMap", ⟨[RuntimeObject.other "x"]⟩⟩ =
      "\n# " ++ "configmaps" ++ "\n" ++
        String.join ([RuntimeObject.other "x"].map
          (renderItem (fun _ => "") "ConfigMap" "v1")) ++ "\n") ∧
    ∃ rest, (objectToYaml (fun _ => "")
        (kindOf "services") (apiVersionFor "services") (.other "x")).data =
      ("apiVersion: " ++ apiVersionFor "services" ++ "\nkind: " ++
        kindOf "services").data ++ rest :=
  ⟨(sections_iff_nonempty (fun _ => "") [] "d" [] "configmaps"
      ⟨"v1", "ConfigMap", ⟨[RuntimeObject.other "x"]⟩⟩ "services" (.other "x")).2.1
      (by simp),
   (sections_iff_nonempty (fun _ => "") [] "d" [] "configmaps"
      ⟨"v1", "ConfigMap", ⟨[RuntimeObject.other "x"]⟩⟩ "services" (.other "x")).2.2.2
      (by decide)⟩

end K8sDump
